import Mathlib

/-
Verification of the intake / validation / page-selection pipeline of the
label-squeeze repository (src/utils/pdfHandler.ts, final version).

The TypeScript module keeps a module-level ordered list `files : FileItem[]`
and processes submitted batches in `handleFiles`, delegating multi-page
documents to an external page-selector surface.  Here the module state and
the per-batch accumulators are threaded explicitly; browser effects
(toasts, modals, `fileListUpdated` dispatches, `showPageSelector`
dispatches) are recorded in effect lists.  External non-determinism
(whether `file.arrayBuffer()` / `PDFDocument.load` throw, and how the user
resolves a selection dialog) is supplied as per-file oracle fields of
`RawFile`.
-/

deriving instance DecidableEq for Except

namespace LabelSqueeze

/-- Raw byte content of a file (`ArrayBuffer` in the source). -/
abbrev Buffer := List Nat

/-- Status field of `FileItem` (`"pending" | "success" | "error"`). -/
inductive Status where
  | pending
  | success
  | error
deriving Repr, DecidableEq

/-- The `FileItem` interface of pdfHandler.ts.  `file : File` is reduced to
its name (the only property the handler reads from it besides `type`,
which lives on the raw input, not the stored item). -/
structure FileItem where
  id : Nat
  name : String
  buffer : Buffer
  status : Status
  errorMessage : Option String := none
  selectedPages : Option (List Nat) := none
  totalPages : Option Nat := none
deriving Repr, DecidableEq

/-- What `PDFDocument.load` yields when it succeeds: the page count and the
first page's dimensions (`firstPage.getSize()`). -/
structure PdfInfo where
  pageCount : Nat
  width : Int
  height : Int
deriving Repr, DecidableEq

/-- Resolution of a `showPageSelector` dialog: `onConfirm(selectedPages)`
or `onCancel()`. -/
inductive SelectionOutcome where
  | commit (pages : List Nat)
  | cancel
deriving Repr, DecidableEq

/-- One submitted file together with the oracle answers of its external
collaborators: whether `file.arrayBuffer()` resolves or rejects, whether
`PDFDocument.load` resolves or rejects (and with which document), and how
the user would resolve a page-selection dialog for it. -/
structure RawFile where
  name : String
  mimeType : String
  readResult : Except String Buffer
  parseResult : Except String PdfInfo
  selection : SelectionOutcome
deriving Repr, DecidableEq

/-- One entry of a `fileListUpdated` payload.  `selectedPages` is an
`Option` because one dispatch site in the source (the drag-end reorder
handler) builds entries without that field. -/
structure SnapshotEntry where
  name : String
  buffer : Buffer
  selectedPages : Option (List Nat)
deriving Repr, DecidableEq

/-- The snapshot built at the add / remove / edit-pages dispatch sites:
`files.filter(f => f.status === "success").map(f => ({name, buffer,
selectedPages: f.selectedPages || [0]}))`. -/
def successSnapshot (files : List FileItem) : List SnapshotEntry :=
  (files.filter (fun f => f.status == Status.success)).map fun f =>
    { name := f.name, buffer := f.buffer,
      selectedPages := some (f.selectedPages.getD [0]) }

/-- The snapshot built at the drag-end reorder dispatch site:
`files.filter(f => f.status === "success").map(f => ({name, buffer}))` —
note the absent `selectedPages` field. -/
def reorderSnapshot (files : List FileItem) : List SnapshotEntry :=
  (files.filter (fun f => f.status == Status.success)).map fun f =>
    { name := f.name, buffer := f.buffer, selectedPages := none }

/-- A toast raised during processing: `showNotification` (success styling)
or `showErrorNotification` (error styling). -/
inductive Notification where
  | toast (message : String)
  | errorToast (message : String)
deriving Repr, DecidableEq

/-- State threaded through one `handleFiles` call: the module-level
`files` list, a fresh-identity counter standing in for
`crypto.randomUUID()`, the per-batch accumulators `failedFiles` and
`successCount`, and the logs of raised toasts, dispatched
`fileListUpdated` payloads and dispatched `showPageSelector` requests. -/
structure BatchState where
  files : List FileItem
  nextId : Nat
  failedFiles : List String
  successCount : Nat
  notifications : List Notification
  emissions : List (List SnapshotEntry)
  selectionRequests : List String
deriving Repr, DecidableEq

/-- The inner `try` body of `handleFiles` after the byte read: load the
document, reject zero pages (`"PDF has no pages"`), then reject a first
page whose width or height is not strictly positive
(`"Invalid page dimensions"`). -/
def validatePdf (parseResult : Except String PdfInfo) : Except String PdfInfo :=
  match parseResult with
  | Except.error msg => Except.error msg
  | Except.ok info =>
    if info.pageCount = 0 then Except.error "PDF has no pages"
    else if info.width ≤ 0 || info.height ≤ 0 then Except.error "Invalid page dimensions"
    else Except.ok info

/-- One iteration of the `for (const file of fileList)` loop of
`handleFiles`, including the `showPageSelector` exchange it awaits for a
multi-page document.  Note that in the source the two `catch` branches set
the local variables `status` / `errorMessage` but never push an item, so a
failed file leaves `files` untouched. -/
def processFile (s : BatchState) (f : RawFile) : BatchState :=
  if f.mimeType ≠ "application/pdf" then
    { s with
      failedFiles := s.failedFiles ++ [f.name],
      notifications := s.notifications ++
        [Notification.errorToast (f.name ++ " is not a PDF file")] }
  else
    let id := s.nextId
    let s1 := { s with nextId := s.nextId + 1 }
    match f.readResult with
    | Except.error msg =>
      { s1 with
        failedFiles := s1.failedFiles ++ [f.name],
        notifications := s1.notifications ++
          [Notification.errorToast ("Failed to read " ++ f.name ++ ": " ++ msg)] }
    | Except.ok buffer =>
      match validatePdf f.parseResult with
      | Except.error msg =>
        { s1 with
          failedFiles := s1.failedFiles ++ [f.name],
          notifications := s1.notifications ++
            [Notification.errorToast ("Failed to load " ++ f.name ++ ": " ++ msg)] }
      | Except.ok info =>
        if info.pageCount > 1 then
          let s2 := { s1 with selectionRequests := s1.selectionRequests ++ [f.name] }
          match f.selection with
          | SelectionOutcome.commit pages =>
            let item : FileItem :=
              { id := id, name := f.name, buffer := buffer, status := Status.success,
                selectedPages := some pages, totalPages := some info.pageCount }
            let newFiles := s2.files ++ [item]
            { s2 with
              files := newFiles,
              successCount := s2.successCount + 1,
              notifications := s2.notifications ++
                [Notification.toast
                  ("Added " ++ toString pages.length ++ " page(s) from " ++ f.name)],
              emissions := s2.emissions ++ [successSnapshot newFiles] }
          | SelectionOutcome.cancel =>
            { s2 with
              notifications := s2.notifications ++
                [Notification.toast ("Skipped " ++ f.name)] }
        else
          let item : FileItem :=
            { id := id, name := f.name, buffer := buffer, status := Status.success,
              selectedPages := some [0], totalPages := some 1 }
          { s1 with
            files := s1.files ++ [item],
            successCount := s1.successCount + 1 }

/-- The aggregate outcome raised at the end of `handleFiles`: nothing, a
success toast, or the `showModalWithRetry` dialog (which carries the
"Try Different Files" retry affordance re-opening the file picker). -/
inductive Summary where
  | noSummary
  | toast (message : String)
  | retryModal (title : String) (message : String) (failedFiles : List String)
deriving Repr, DecidableEq

/-- The summary block at the end of `handleFiles`: a retry dialog when any
file failed (message depending on whether any succeeded), else a success
toast when any succeeded, else nothing. -/
def batchSummary (successCount : Nat) (failedFiles : List String) : Summary :=
  if failedFiles.length > 0 then
    Summary.retryModal "Some Files Failed to Load"
      (if successCount > 0 then
        toString successCount ++ " file(s) added successfully. " ++
          toString failedFiles.length ++ " file(s) failed to load."
      else
        "All " ++ toString failedFiles.length ++ " file(s) failed to load.")
      failedFiles
  else if successCount > 0 then
    Summary.toast
      (if successCount = 1 then "File added successfully"
       else toString successCount ++ " files added successfully")
  else Summary.noSummary

/-- Fresh per-call state of `handleFiles`: the module-level `files` list
and identity counter carry over, the batch accumulators start empty. -/
def initialBatchState (files₀ : List FileItem) (nextId₀ : Nat) : BatchState :=
  { files := files₀, nextId := nextId₀, failedFiles := [], successCount := 0,
    notifications := [], emissions := [], selectionRequests := [] }

/-- The whole `handleFiles(fileList)` call: process the files in order,
then emit the end-of-batch `fileListUpdated` snapshot of the final list,
and raise the aggregate summary. -/
def handleFiles (files₀ : List FileItem) (nextId₀ : Nat) (fileList : List RawFile) :
    BatchState × Summary :=
  let s := fileList.foldl processFile (initialBatchState files₀ nextId₀)
  ({ s with emissions := s.emissions ++ [successSnapshot s.files] },
   batchSummary s.successCount s.failedFiles)

/-- The removal branch of the file-list click handler:
`files = files.filter(f => f.id !== id)`. -/
def removeById (files : List FileItem) (id : Nat) : List FileItem :=
  files.filter (fun f => f.id != id)

/-- The drag-end reorder handler: rebuild the list by looking up, for each
identity in DOM order, the matching item of the current list. -/
def reorder (files : List FileItem) (domOrder : List Nat) : List FileItem :=
  domOrder.filterMap (fun id => files.find? (fun f => f.id == id))

/-- Resolution of a `showPageSelectorForEdit` dialog. -/
inductive EditOutcome where
  | commit (pages : List Nat)
  | cancel
deriving Repr, DecidableEq

/-- Result of an edit-pages interaction: the new list plus the toasts and
`fileListUpdated` dispatches it raised. -/
structure EditResult where
  files : List FileItem
  notifications : List Notification
  emissions : List (List SnapshotEntry)
deriving Repr, DecidableEq

/-- In the source, `onConfirm` of the edit dialog assigns
`fileItem.selectedPages = selectedPages` on the object returned by
`files.find(...)`, i.e. it rewrites the first item with that identity. -/
def updateFirstById (files : List FileItem) (id : Nat) (pages : List Nat) :
    List FileItem :=
  match files with
  | [] => []
  | f :: rest =>
    if f.id == id then { f with selectedPages := some pages } :: rest
    else f :: updateFirstById rest id pages

/-- The edit-pages branch of the click handler plus
`showPageSelectorForEdit`: look the item up by identity; the dialog is
only opened when `fileItem.totalPages` is truthy (an `ArrayBuffer` is
always truthy, so the `!fileItem.buffer` guard never fires); `onConfirm`
assigns the committed pages verbatim, toasts, and dispatches a snapshot;
`onCancel` does nothing. -/
def editPages (files : List FileItem) (id : Nat) (outcome : EditOutcome) :
    EditResult :=
  match files.find? (fun f => f.id == id) with
  | none => { files := files, notifications := [], emissions := [] }
  | some item =>
    if item.totalPages.getD 0 = 0 then
      { files := files, notifications := [], emissions := [] }
    else
      match outcome with
      | EditOutcome.cancel => { files := files, notifications := [], emissions := [] }
      | EditOutcome.commit pages =>
        let newFiles := updateFirstById files id pages
        { files := newFiles,
          notifications :=
            [Notification.toast ("Updated to " ++ toString pages.length ++
              " page(s) from " ++ item.name)],
          emissions := [successSnapshot newFiles] }

/-- How one loop iteration of `handleFiles` treats a raw file, read off
from the branch structure of the source: wrong MIME type, byte-read
rejection, load/validation rejection, direct single-page append,
multi-page selection committed, or multi-page selection cancelled. -/
inductive StepKind where
  | wrongType
  | readFail (msg : String)
  | invalidPdf (msg : String)
  | singlePage (buffer : Buffer)
  | multiCommit (buffer : Buffer) (pageCount : Nat) (pages : List Nat)
  | multiCancel
deriving Repr, DecidableEq

/-- Classify a raw file by the branch of `processFile` it takes. -/
def classify (f : RawFile) : StepKind :=
  if f.mimeType ≠ "application/pdf" then StepKind.wrongType
  else
    match f.readResult with
    | Except.error msg => StepKind.readFail msg
    | Except.ok buffer =>
      match validatePdf f.parseResult with
      | Except.error msg => StepKind.invalidPdf msg
      | Except.ok info =>
        if info.pageCount > 1 then
          match f.selection with
          | SelectionOutcome.commit pages =>
            StepKind.multiCommit buffer info.pageCount pages
          | SelectionOutcome.cancel => StepKind.multiCancel
        else StepKind.singlePage buffer

/-- Effect of one loop iteration, flattened over the classification. -/
def applyStep (s : BatchState) (name : String) (k : StepKind) : BatchState :=
  match k with
  | StepKind.wrongType =>
    { s with
      failedFiles := s.failedFiles ++ [name],
      notifications := s.notifications ++
        [Notification.errorToast (name ++ " is not a PDF file")] }
  | StepKind.readFail msg =>
    { s with
      nextId := s.nextId + 1,
      failedFiles := s.failedFiles ++ [name],
      notifications := s.notifications ++
        [Notification.errorToast ("Failed to read " ++ name ++ ": " ++ msg)] }
  | StepKind.invalidPdf msg =>
    { s with
      nextId := s.nextId + 1,
      failedFiles := s.failedFiles ++ [name],
      notifications := s.notifications ++
        [Notification.errorToast ("Failed to load " ++ name ++ ": " ++ msg)] }
  | StepKind.singlePage buffer =>
    { s with
      nextId := s.nextId + 1,
      files := s.files ++
        [{ id := s.nextId, name := name, buffer := buffer, status := Status.success,
           selectedPages := some [0], totalPages := some 1 }],
      successCount := s.successCount + 1 }
  | StepKind.multiCommit buffer pageCount pages =>
    { s with
      nextId := s.nextId + 1,
      files := s.files ++
        [{ id := s.nextId, name := name, buffer := buffer, status := Status.success,
           selectedPages := some pages, totalPages := some pageCount }],
      successCount := s.successCount + 1,
      notifications := s.notifications ++
        [Notification.toast
          ("Added " ++ toString pages.length ++ " page(s) from " ++ name)],
      emissions := s.emissions ++
        [successSnapshot (s.files ++
          [{ id := s.nextId, name := name, buffer := buffer, status := Status.success,
             selectedPages := some pages, totalPages := some pageCount }])],
      selectionRequests := s.selectionRequests ++ [name] }
  | StepKind.multiCancel =>
    { s with
      nextId := s.nextId + 1,
      notifications := s.notifications ++ [Notification.toast ("Skipped " ++ name)],
      selectionRequests := s.selectionRequests ++ [name] }

/-- True exactly for the iterations that append a multi-page item via the
selection dialog's `onConfirm` (the only loop branch that dispatches its
own `fileListUpdated` besides the end-of-batch dispatch). -/
def isCommitStep (k : StepKind) : Bool :=
  match k with
  | StepKind.multiCommit _ _ _ => true
  | _ => false

/-- Non-emptiness of `selectedPages` and range/uniqueness of its indices
against a page count. -/
def validSelection (pages : List Nat) (totalPages : Nat) : Bool :=
  !pages.isEmpty && decide pages.Nodup && pages.all (fun p => p < totalPages)

/-- Modelled from the spec: the external selection surface (the
PageSelectorModal component, which is repository code not present under
src/) resolves `onConfirm` only with "ordered unique indices" (§4.2) that
satisfy the data-model invariant of the item they are committed into: a
non-empty set of page indices, each strictly below the document's page
count (§3).  A raw file's oracle respects that contract when any commit
it carries is valid for the page count its parse yields. -/
def selectionValidFor (f : RawFile) : Bool :=
  match f.selection, f.parseResult with
  | SelectionOutcome.commit pages, Except.ok info =>
    validSelection pages info.pageCount
  | _, _ => true

/-- The module-level state between user interactions: the `files` list and
the fresh-identity counter. -/
structure Store where
  files : List FileItem
  nextId : Nat
deriving Repr, DecidableEq

/-- The store-mutating operations named by the invariant claim: a batch
submission (which performs the appends of single-page items and of
committed multi-page selections) and an edit-pages interaction. -/
inductive Op where
  | batch (fileList : List RawFile)
  | edit (id : Nat) (outcome : EditOutcome)
deriving Repr, DecidableEq

def applyOp (st : Store) (op : Op) : Store :=
  match op with
  | Op.batch fs =>
    let r := handleFiles st.files st.nextId fs
    { files := r.1.files, nextId := r.1.nextId }
  | Op.edit id outcome => { st with files := (editPages st.files id outcome).files }

def applyOps (st : Store) (ops : List Op) : Store := ops.foldl applyOp st

def emptyStore : Store := { files := [], nextId := 0 }

/-- Validity of one operation's external inputs against the spec-modelled
selection-surface contract: every commit carried by a batch is valid for
its file's page count, and a committed edit is valid for the targeted
item's recorded page count. -/
def opValid (st : Store) (op : Op) : Bool :=
  match op with
  | Op.batch fs => fs.all selectionValidFor
  | Op.edit id outcome =>
    match outcome with
    | EditOutcome.cancel => true
    | EditOutcome.commit pages =>
      match st.files.find? (fun f => f.id == id) with
      | some item => validSelection pages (item.totalPages.getD 0)
      | none => true

def opsValid (st : Store) : List Op → Bool
  | [] => true
  | op :: ops => opValid st op && opsValid (applyOp st op) ops

/-- The per-item invariant of the claim: a success item has a non-empty
`selectedPages`, every index strictly below its `totalPages`. -/
def ItemOk (f : FileItem) : Prop :=
  f.status = Status.success →
    f.selectedPages.getD [] ≠ [] ∧
      ∀ p ∈ f.selectedPages.getD [], p < f.totalPages.getD 0

def StoreOk (files : List FileItem) : Prop := ∀ f ∈ files, ItemOk f

/-- Auxiliary inductive invariant: the per-item property plus uniqueness
and freshness of identities (identities are UUIDs in the source). -/
def StoreInv (st : Store) : Prop :=
  StoreOk st.files ∧ (st.files.map (fun f => f.id)).Nodup ∧
    ∀ g ∈ st.files, g.id < st.nextId

/-- Same auxiliary invariant on the in-batch state. -/
def BatchInv (s : BatchState) : Prop :=
  StoreOk s.files ∧ (s.files.map (fun f => f.id)).Nodup ∧
    ∀ g ∈ s.files, g.id < s.nextId

/-- The aggregate outcome notification exactly as the specification
enumerates it, written from the spec's four cases (one success and no
failure; N>1 successes and no failure; mixed with retry affordance; all
failed with retry affordance) rather than from the code's branch
structure, for comparison with `batchSummary`. -/
def specSummary (successCount : Nat) (failedFiles : List String) : Summary :=
  if failedFiles.length = 0 then
    if successCount = 1 then Summary.toast "File added successfully"
    else if successCount > 1 then
      Summary.toast (toString successCount ++ " files added successfully")
    else Summary.noSummary
  else
    if successCount > 0 then
      Summary.retryModal "Some Files Failed to Load"
        (toString successCount ++ " file(s) added successfully. " ++
          toString failedFiles.length ++ " file(s) failed to load.")
        failedFiles
    else
      Summary.retryModal "Some Files Failed to Load"
        ("All " ++ toString failedFiles.length ++ " file(s) failed to load.")
        failedFiles

/-- A valid single-page PDF submission. -/
def singlePdf : RawFile :=
  { name := "a.pdf", mimeType := "application/pdf",
    readResult := Except.ok [10],
    parseResult := Except.ok { pageCount := 1, width := 595, height := 842 },
    selection := SelectionOutcome.cancel }

/-- A valid three-page PDF whose selection dialog the user resolves by
committing pages 0 and 2. -/
def multiCommitPdf : RawFile :=
  { name := "b.pdf", mimeType := "application/pdf",
    readResult := Except.ok [11],
    parseResult := Except.ok { pageCount := 3, width := 595, height := 842 },
    selection := SelectionOutcome.commit [0, 2] }

/-- A valid two-page PDF whose selection dialog the user cancels. -/
def multiCancelPdf : RawFile :=
  { name := "d.pdf", mimeType := "application/pdf",
    readResult := Except.ok [13],
    parseResult := Except.ok { pageCount := 2, width := 595, height := 842 },
    selection := SelectionOutcome.cancel }

/-- A PDF-typed file whose structural parse rejects. -/
def corruptPdf : RawFile :=
  { name := "c.pdf", mimeType := "application/pdf",
    readResult := Except.ok [12],
    parseResult := Except.error "Failed to parse PDF document",
    selection := SelectionOutcome.cancel }

/-- A stored success item with three pages, two of them selected. -/
def sampleItem : FileItem :=
  { id := 5, name := "a.pdf", buffer := [1], status := Status.success,
    selectedPages := some [0, 2], totalPages := some 3 }

/-- A second stored item with a distinct identity. -/
def sampleItem2 : FileItem :=
  { id := 7, name := "b.pdf", buffer := [2], status := Status.success,
    selectedPages := some [0], totalPages := some 1 }

/-- A sample operation sequence: one batch (a committed multi-page file
and a single-page file), then a committed re-edit of the first item. -/
def sampleOps : List Op :=
  [Op.batch [multiCommitPdf, singlePdf], Op.edit 0 (EditOutcome.commit [1])]

theorem processFile_eq (s : BatchState) (f : RawFile) :
    processFile s f = applyStep s f.name (classify f) := by
  unfold processFile classify
  by_cases h : f.mimeType = "application/pdf"
  · simp only [h, ne_eq, not_true_eq_false, if_false, if_neg]
    cases hr : f.readResult with
    | error msg => rfl
    | ok buffer =>
      cases hv : validatePdf f.parseResult with
      | error msg => rfl
      | ok info =>
        by_cases hp : info.pageCount > 1
        · cases hs : f.selection with
          | commit pages => simp [hp, applyStep]
          | cancel => simp [hp, applyStep]
        · simp [hp, applyStep]
  · simp [h, applyStep]

theorem validatePdf_ok (p : Except String PdfInfo) (info : PdfInfo)
    (h : validatePdf p = Except.ok info) :
    p = Except.ok info ∧ info.pageCount ≠ 0 ∧ 0 < info.width ∧ 0 < info.height := by
  unfold validatePdf at h
  cases p with
  | error m => simp at h
  | ok i =>
    by_cases h0 : i.pageCount = 0
    · simp [h0] at h
    · by_cases hw : i.width ≤ 0
      · simp [h0, hw] at h
      · by_cases hh : i.height ≤ 0
        · simp [h0, hw, hh] at h
        · simp [h0, hw, hh] at h
          subst h
          exact ⟨rfl, h0, by omega, by omega⟩

theorem validatePdf_of_valid (info : PdfInfo) (h0 : info.pageCount ≠ 0)
    (hw : 0 < info.width) (hh : 0 < info.height) :
    validatePdf (Except.ok info) = Except.ok info := by
  have hw' : ¬ info.width ≤ 0 := by omega
  have hh' : ¬ info.height ≤ 0 := by omega
  unfold validatePdf
  simp [h0, hw', hh']

theorem classify_of_singlePage (f : RawFile) (buffer : Buffer) (info : PdfInfo)
    (h1 : f.mimeType = "application/pdf") (h2 : f.readResult = Except.ok buffer)
    (h3 : f.parseResult = Except.ok info) (h4 : info.pageCount = 1)
    (h5 : 0 < info.width) (h6 : 0 < info.height) :
    classify f = StepKind.singlePage buffer := by
  unfold classify
  rw [h2, h3, validatePdf_of_valid info (by omega) h5 h6]
  simp [h1, h4]

theorem classify_of_multiCancel (f : RawFile) (buffer : Buffer) (info : PdfInfo)
    (h1 : f.mimeType = "application/pdf") (h2 : f.readResult = Except.ok buffer)
    (h3 : f.parseResult = Except.ok info) (h4 : 1 < info.pageCount)
    (h5 : 0 < info.width) (h6 : 0 < info.height)
    (h7 : f.selection = SelectionOutcome.cancel) :
    classify f = StepKind.multiCancel := by
  unfold classify
  rw [h2, h3, validatePdf_of_valid info (by omega) h5 h6]
  simp [h1, h4, h7]

theorem classify_multiCommit_inv (f : RawFile) (b : Buffer) (n : Nat)
    (pages : List Nat) (h : classify f = StepKind.multiCommit b n pages) :
    ∃ info, f.parseResult = Except.ok info ∧ info.pageCount = n ∧
      f.selection = SelectionOutcome.commit pages ∧ 1 < n := by
  unfold classify at h
  split at h
  · simp at h
  · split at h
    · simp at h
    · split at h
      · simp at h
      · split at h
        · split at h
          · rename_i xr buf hread xp info hvalid hp xs ps hsel
            simp only [StepKind.multiCommit.injEq] at h
            obtain ⟨hb, hn, hps⟩ := h
            subst hn
            exact ⟨info, (validatePdf_ok _ _ hvalid).1, rfl,
              by rw [hsel, hps], by omega⟩
          · simp at h
        · simp at h

theorem applyStep_emissions (s : BatchState) (name : String) (k : StepKind) :
    (applyStep s name k).emissions.length =
      s.emissions.length + (if isCommitStep k then 1 else 0) := by
  cases k <;> simp [applyStep, isCommitStep]

theorem foldl_emissions (fs : List RawFile) (s : BatchState) :
    (fs.foldl processFile s).emissions.length =
      s.emissions.length +
        (fs.filter (fun f => isCommitStep (classify f))).length := by
  induction fs generalizing s with
  | nil => simp
  | cons f fs ih =>
    rw [List.foldl_cons, ih, processFile_eq, applyStep_emissions,
      List.filter_cons]
    by_cases h : isCommitStep (classify f) = true
    · simp [h]; omega
    · simp [h]

theorem validSelection_spec (pages : List Nat) (n : Nat)
    (h : validSelection pages n = true) :
    pages ≠ [] ∧ pages.Nodup ∧ ∀ p ∈ pages, p < n := by
  unfold validSelection at h
  simp only [Bool.and_eq_true, Bool.not_eq_true', List.all_eq_true,
    decide_eq_true_eq] at h
  refine ⟨?_, h.1.2, fun p hp => h.2 p hp⟩
  intro hnil
  subst hnil
  simp at h

theorem selectionValidFor_commit (f : RawFile) (info : PdfInfo)
    (pages : List Nat) (hparse : f.parseResult = Except.ok info)
    (hsel : f.selection = SelectionOutcome.commit pages)
    (h : selectionValidFor f = true) :
    pages ≠ [] ∧ pages.Nodup ∧ ∀ p ∈ pages, p < info.pageCount := by
  unfold selectionValidFor at h
  rw [hsel, hparse] at h
  exact validSelection_spec _ _ h

theorem batchInv_append (files : List FileItem) (nextId : Nat) (item : FileItem)
    (hok : StoreOk files) (hnd : (files.map (fun f => f.id)).Nodup)
    (hlt : ∀ g ∈ files, g.id < nextId) (hitem : ItemOk item)
    (hid : item.id = nextId) :
    StoreOk (files ++ [item]) ∧
      ((files ++ [item]).map (fun f => f.id)).Nodup ∧
      ∀ g ∈ files ++ [item], g.id < nextId + 1 := by
  refine ⟨?_, ?_, ?_⟩
  · intro g hg
    rcases List.mem_append.mp hg with hg | hg
    · exact hok g hg
    · rw [List.mem_singleton.mp hg]
      exact hitem
  · rw [List.map_append]
    refine List.Nodup.append hnd (List.nodup_singleton _) ?_
    intro a ha hb
    simp only [List.map_cons, List.map_nil, List.mem_singleton] at hb
    obtain ⟨g, hg, hga⟩ := List.mem_map.mp ha
    have := hlt g hg
    omega
  · intro g hg
    rcases List.mem_append.mp hg with hg | hg
    · exact Nat.lt_succ_of_lt (hlt g hg)
    · rw [List.mem_singleton.mp hg, hid]
      exact Nat.lt_succ_self _

theorem processFile_inv (s : BatchState) (f : RawFile)
    (hinv : BatchInv s) (hsel : selectionValidFor f = true) :
    BatchInv (processFile s f) := by
  obtain ⟨hok, hnd, hlt⟩ := hinv
  rw [processFile_eq]
  cases hk : classify f with
  | wrongType => exact ⟨hok, hnd, hlt⟩
  | readFail msg => exact ⟨hok, hnd, fun g hg => Nat.lt_succ_of_lt (hlt g hg)⟩
  | invalidPdf msg => exact ⟨hok, hnd, fun g hg => Nat.lt_succ_of_lt (hlt g hg)⟩
  | multiCancel => exact ⟨hok, hnd, fun g hg => Nat.lt_succ_of_lt (hlt g hg)⟩
  | singlePage buffer =>
    exact batchInv_append s.files s.nextId _ hok hnd hlt
      (fun _ => ⟨by simp, by simp⟩) rfl
  | multiCommit buffer n pages =>
    obtain ⟨info, hparse, hn, hselc, hn1⟩ := classify_multiCommit_inv f _ _ _ hk
    obtain ⟨hne, _, hbound⟩ := selectionValidFor_commit f info pages hparse hselc hsel
    refine batchInv_append s.files s.nextId _ hok hnd hlt ?_ rfl
    intro _
    refine ⟨by simpa using hne, ?_⟩
    simpa [hn] using hbound

theorem foldl_inv (fs : List RawFile) (s : BatchState)
    (hinv : BatchInv s) (hsel : ∀ f ∈ fs, selectionValidFor f = true) :
    BatchInv (fs.foldl processFile s) := by
  induction fs generalizing s with
  | nil => exact hinv
  | cons f fs ih =>
    exact ih _ (processFile_inv _ _ hinv (hsel f (by simp)))
      (fun g hg => hsel g (by simp [hg]))

theorem updateFirstById_ids (id : Nat) (pages : List Nat)
    (files : List FileItem) :
    (updateFirstById files id pages).map (fun f => f.id) =
      files.map (fun f => f.id) := by
  induction files with
  | nil => rfl
  | cons f rest ih =>
    unfold updateFirstById
    split <;> simp [ih]

theorem updateFirstById_ok (id : Nat) (pages : List Nat) :
    ∀ files : List FileItem, StoreOk files →
    (∀ item, files.find? (fun f => f.id == id) = some item →
      validSelection pages (item.totalPages.getD 0) = true) →
    StoreOk (updateFirstById files id pages) := by
  intro files
  induction files with
  | nil =>
    intro _ _ g hg
    simp [updateFirstById] at hg
  | cons f rest ih =>
    intro hok hv g hg
    unfold updateFirstById at hg
    split at hg
    · rename_i hf
      have hfind : (f :: rest).find? (fun x => x.id == id) = some f :=
        List.find?_cons_of_pos _ hf
      obtain ⟨hne, _, hbound⟩ := validSelection_spec _ _ (hv f hfind)
      rcases List.mem_cons.mp hg with rfl | hg
      · intro _
        exact ⟨by simpa using hne, by simpa using hbound⟩
      · exact hok g (List.mem_cons_of_mem f hg)
    · rename_i hf
      rcases List.mem_cons.mp hg with hgf | hg
      · rw [hgf]
        exact hok f (List.mem_cons_self f rest)
      · refine ih (fun x hx => hok x (List.mem_cons_of_mem f hx)) ?_ g hg
        intro item hitem
        refine hv item ?_
        rw [List.find?_cons_of_neg _ (by simpa using hf)]
        exact hitem

theorem mem_map_id_bound (l2 l : List FileItem) (n : Nat)
    (he : l2.map (fun f => f.id) = l.map (fun f => f.id))
    (hb : ∀ g ∈ l, g.id < n) : ∀ g ∈ l2, g.id < n := by
  intro g hg
  have hmem : g.id ∈ l2.map (fun f => f.id) := List.mem_map_of_mem _ hg
  rw [he] at hmem
  obtain ⟨g2, hg2, hge⟩ := List.mem_map.mp hmem
  rw [← hge]
  exact hb g2 hg2

theorem editPages_cancel (files : List FileItem) (id : Nat) :
    editPages files id EditOutcome.cancel =
      { files := files, notifications := [], emissions := [] } := by
  unfold editPages
  split
  · rfl
  · split
    · rfl
    · rfl

theorem editPages_files_cases (files : List FileItem) (id : Nat)
    (outcome : EditOutcome) :
    (editPages files id outcome).files = files ∨
    ∃ pages item, outcome = EditOutcome.commit pages ∧
      files.find? (fun f => f.id == id) = some item ∧
      item.totalPages.getD 0 ≠ 0 ∧
      (editPages files id outcome).files = updateFirstById files id pages := by
  unfold editPages
  split
  · exact Or.inl rfl
  · rename_i item hfind
    split
    · exact Or.inl rfl
    · rename_i htp
      cases outcome with
      | cancel => exact Or.inl rfl
      | commit pages => exact Or.inr ⟨pages, item, rfl, hfind, htp, rfl⟩

theorem applyOp_inv (st : Store) (op : Op) (hinv : StoreInv st)
    (hv : opValid st op = true) : StoreInv (applyOp st op) := by
  obtain ⟨hok, hnd, hlt⟩ := hinv
  cases op with
  | batch fs =>
    have hall : ∀ f ∈ fs, selectionValidFor f = true := by
      simpa [opValid, List.all_eq_true] using hv
    have h := foldl_inv fs (initialBatchState st.files st.nextId)
      ⟨hok, hnd, hlt⟩ hall
    exact ⟨h.1, h.2.1, h.2.2⟩
  | edit id outcome =>
    rcases editPages_files_cases st.files id outcome with he | he
    · refine ⟨?_, ?_, ?_⟩ <;> simp only [applyOp, he]
      · exact hok
      · exact hnd
      · exact hlt
    · obtain ⟨pages, item, rfl, hfind, htp, he⟩ := he
      have hvitem : ∀ item2, st.files.find? (fun f => f.id == id) = some item2 →
          validSelection pages (item2.totalPages.getD 0) = true := by
        intro item2 hitem2
        rw [hfind] at hitem2
        cases hitem2
        simpa [opValid, hfind] using hv
      refine ⟨?_, ?_, ?_⟩ <;> simp only [applyOp, he]
      · exact updateFirstById_ok id pages st.files hok hvitem
      · rw [updateFirstById_ids]
        exact hnd
      · exact mem_map_id_bound _ _ _ (updateFirstById_ids id pages st.files) hlt

theorem foldl_cancel_counts (fs : List RawFile) (s : BatchState)
    (h : ∀ f ∈ fs, classify f = StepKind.multiCancel) :
    (fs.foldl processFile s).successCount = s.successCount ∧
    (fs.foldl processFile s).failedFiles = s.failedFiles := by
  induction fs generalizing s with
  | nil => exact ⟨rfl, rfl⟩
  | cons f fs ih =>
    rw [List.foldl_cons, processFile_eq, h f (by simp)]
    exact ih _ (fun g hg => h g (by simp [hg]))

theorem find?_append_cons (l1 l2 : List FileItem) (item : FileItem) (id : Nat)
    (hfirst : ∀ x ∈ l1, (x.id == id) = false)
    (hitem : (item.id == id) = true) :
    (l1 ++ item :: l2).find? (fun f => f.id == id) = some item := by
  induction l1 with
  | nil => simp [List.find?_cons_of_pos, hitem]
  | cons a l1 ih =>
    rw [List.cons_append,
      List.find?_cons_of_neg _ (by simp [hfirst a (by simp)])]
    exact ih (fun x hx => hfirst x (by simp [hx]))

theorem updateFirstById_append (l1 l2 : List FileItem) (item : FileItem)
    (id : Nat) (pages : List Nat)
    (hfirst : ∀ x ∈ l1, (x.id == id) = false)
    (hitem : (item.id == id) = true) :
    updateFirstById (l1 ++ item :: l2) id pages =
      l1 ++ { item with selectedPages := some pages } :: l2 := by
  induction l1 with
  | nil => simp [updateFirstById, hitem]
  | cons a l1 ih =>
    have ha := hfirst a (by simp)
    simp [updateFirstById, ha, ih (fun x hx => hfirst x (by simp [hx]))]

theorem removeById_length (id : Nat) :
    ∀ files : List FileItem, (files.map (fun f => f.id)).Nodup →
    (∃ x ∈ files, x.id = id) →
    (removeById files id).length + 1 = files.length := by
  intro files
  induction files with
  | nil =>
    intro _ h
    obtain ⟨x, hx, _⟩ := h
    simp at hx
  | cons f rest ih =>
    intro hnd hex
    rw [List.map_cons, List.nodup_cons] at hnd
    by_cases hf : f.id = id
    · have hrest : ∀ x ∈ rest, (x.id != id) = true := by
        intro x hx
        simp only [bne_iff_ne, ne_eq]
        intro hxe
        exact hnd.1 (by rw [hf, ← hxe]; exact List.mem_map_of_mem _ hx)
      show (List.filter _ (f :: rest)).length + 1 = _
      rw [List.filter_cons]
      have hfb : (f.id != id) = false := by simp [hf]
      rw [if_neg (by simp [hfb])]
      rw [List.filter_eq_self.mpr hrest]
      simp
    · obtain ⟨x, hx, hxe⟩ := hex
      have hxrest : x ∈ rest := by
        rcases List.mem_cons.mp hx with hxf | hxr
        · exact absurd hxe (by rw [hxf] at *; exact hf)
        · exact hxr
      have := ih hnd.2 ⟨x, hxrest, hxe⟩
      unfold removeById at this
      show (List.filter _ (f :: rest)).length + 1 = _
      rw [List.filter_cons, if_pos (by simp [hf])]
      simp only [List.length_cons]
      omega

theorem applyOps_inv (ops : List Op) (st : Store) (hinv : StoreInv st)
    (hv : opsValid st ops = true) : StoreInv (applyOps st ops) := by
  induction ops generalizing st with
  | nil => exact hinv
  | cons op ops ih =>
    unfold opsValid at hv
    rw [Bool.and_eq_true] at hv
    exact ih _ (applyOp_inv st op hinv hv.1) hv.2

/-- C1: the claim says every post-type-check validation failure stores an
error-status IntakeItem in the worklist.  Evaluating the batch flow on a
PDF-typed file whose structural parse rejects, followed by a valid
single-page file, shows the code does not store any item for the failed
file (the `status`/`errorMessage` locals of its catch block are dead
stores): the failure is counted and toasted, the next file is still
processed, but no error-status item ever reaches the store. -/
theorem C1_error_item_not_stored :
    (handleFiles [] 0 [corruptPdf, singlePdf]).1.files.map (fun g => g.name) =
      ["a.pdf"] ∧
    (handleFiles [] 0 [corruptPdf, singlePdf]).1.failedFiles = ["c.pdf"] ∧
    Notification.errorToast
        "Failed to load c.pdf: Failed to parse PDF document" ∈
      (handleFiles [] 0 [corruptPdf, singlePdf]).1.notifications ∧
    ∀ g ∈ (handleFiles [] 0 [corruptPdf, singlePdf]).1.files,
      g.status ≠ Status.error := by
  decide

/-- C2 counterexample: a batch consisting of one multi-page file whose
selection is committed produces two `fileListUpdated` emissions (one
inside the selection dialog's `onConfirm`, one at the end of the batch),
not exactly one as the claim states. -/
theorem C2_counterexample :
    (handleFiles [] 0 [multiCommitPdf]).1.emissions.length = 2 ∧
    ¬ (handleFiles [] 0 [multiCommitPdf]).1.emissions.length = 1 := by
  decide

/-- C2 amended: every batch ends with exactly one end-of-batch emission
carrying the snapshot of the final store, but additionally each multi-page
file whose selection is committed produces one emission at commit time, so
a call to `handleFiles` emits `1 + (number of committed multi-page files)`
snapshots in total. -/
theorem C2_amended_emissions (files₀ : List FileItem) (n₀ : Nat)
    (fs : List RawFile) :
    (handleFiles files₀ n₀ fs).1.emissions.length =
      (fs.filter (fun f => isCommitStep (classify f))).length + 1 ∧
    (handleFiles files₀ n₀ fs).1.emissions.getLast? =
      some (successSnapshot (handleFiles files₀ n₀ fs).1.files) := by
  constructor
  · show ((fs.foldl processFile (initialBatchState files₀ n₀)).emissions ++
      [successSnapshot (fs.foldl processFile (initialBatchState files₀ n₀)).files]).length = _
    rw [List.length_append, foldl_emissions]
    simp [initialBatchState]
  · show ((fs.foldl processFile (initialBatchState files₀ n₀)).emissions ++
      [successSnapshot (fs.foldl processFile (initialBatchState files₀ n₀)).files]).getLast? = _
    rw [List.getLast?_concat]
    rfl

/-- C3: the claim says every emitted snapshot entry carries the three
fields name, bytes and selectedPages.  The drag-end reorder dispatch site
builds its entries without the `selectedPages` field, unlike the other
four dispatch sites: for the same one-item store, the reorder payload
carries no selection while the payload of the add/remove/edit sites does. -/
theorem C3_reorder_snapshot_lacks_selectedPages :
    reorderSnapshot (reorder [sampleItem] [5]) =
      [{ name := "a.pdf", buffer := [1], selectedPages := none }] ∧
    successSnapshot (reorder [sampleItem] [5]) =
      [{ name := "a.pdf", buffer := [1], selectedPages := some [0, 2] }] := by
  decide

/-- C4: over every state reachable from the empty store by batch
submissions (single-page appends and committed multi-page selections) and
edit-pages operations whose external selection commits respect the
spec-modelled selection-surface contract, every success item has a
non-empty `selectedPages` whose indices are all strictly below the item's
`totalPages`. -/
theorem C4_success_invariant (ops : List Op)
    (h : opsValid emptyStore ops = true) :
    StoreOk (applyOps emptyStore ops).files :=
  (applyOps_inv ops emptyStore
    ⟨fun g hg => absurd hg (List.not_mem_nil g), by simp [emptyStore],
      fun g hg => absurd hg (List.not_mem_nil g)⟩ h).1

/-- C4 witness: a concrete valid operation sequence satisfies the
hypothesis and the resulting store satisfies the invariant. -/
theorem C4_witness :
    opsValid emptyStore sampleOps = true ∧
    StoreOk (applyOps emptyStore sampleOps).files :=
  ⟨by decide, C4_success_invariant sampleOps (by decide)⟩

/-- C5: a cancelled selection mutates nothing.  First-time selection: a
multi-page file whose dialog is cancelled leaves the store and the
emission log unchanged and raises only the neutral success-styled
"Skipped" toast (not an error).  Re-edit: a cancelled edit leaves the
list — hence the item's `selectedPages` from the last committed edit —
unchanged, raising no toast and no emission. -/
theorem C5_cancel_is_noop (s : BatchState) (f : RawFile) (buffer : Buffer)
    (info : PdfInfo) (h1 : f.mimeType = "application/pdf")
    (h2 : f.readResult = Except.ok buffer) (h3 : f.parseResult = Except.ok info)
    (h4 : 1 < info.pageCount) (h5 : 0 < info.width) (h6 : 0 < info.height)
    (h7 : f.selection = SelectionOutcome.cancel)
    (files : List FileItem) (id : Nat) :
    (processFile s f).files = s.files ∧
    (processFile s f).emissions = s.emissions ∧
    (processFile s f).notifications =
      s.notifications ++ [Notification.toast ("Skipped " ++ f.name)] ∧
    (editPages files id EditOutcome.cancel).files = files ∧
    (editPages files id EditOutcome.cancel).emissions = [] ∧
    (editPages files id EditOutcome.cancel).notifications = [] := by
  rw [processFile_eq, classify_of_multiCancel f buffer info h1 h2 h3 h4 h5 h6 h7,
    editPages_cancel]
  exact ⟨rfl, rfl, rfl, rfl, rfl, rfl⟩

/-- C5 witness: the cancelled two-page file leaves an empty store empty,
and a cancelled edit leaves a one-item store unchanged. -/
theorem C5_witness :
    (processFile (initialBatchState [] 0) multiCancelPdf).files = [] ∧
    (editPages [sampleItem] 5 EditOutcome.cancel).files = [sampleItem] :=
  have h := C5_cancel_is_noop (initialBatchState [] 0) multiCancelPdf [13]
    { pageCount := 2, width := 595, height := 842 } rfl rfl rfl (by decide)
    (by decide) (by decide) rfl [sampleItem] 5
  ⟨h.1, h.2.2.2.1⟩

/-- C6 counterexample: committing the out-of-range selection `[5]` on a
success item with `totalPages = 3` does not error and does not leave the
item unchanged — the code replaces `selectedPages` verbatim and raises a
success toast, contradicting the claim that such an edit errors and
leaves the item unchanged. -/
theorem C6_counterexample :
    (editPages [sampleItem] 5 (EditOutcome.commit [5])).files =
      [{ sampleItem with selectedPages := some [5] }] ∧
    (editPages [sampleItem] 5 (EditOutcome.commit [5])).notifications =
      [Notification.toast "Updated to 1 page(s) from a.pdf"] ∧
    sampleItem.status = Status.success ∧
    ¬ 5 < sampleItem.totalPages.getD 0 := by
  decide

/-- C6 amended: the edit-pages operation performs no validation and never
errors: when the targeted identity is present and its item has a non-zero
recorded page count, a committed selection replaces that item's
`selectedPages` verbatim — regardless of range — leaving every other item
and the order unchanged and raising no error notification; a cancelled
edit leaves the list unchanged. -/
theorem C6_amended_edit_replaces_verbatim (l1 l2 : List FileItem)
    (item : FileItem) (id : Nat) (pages : List Nat)
    (hfirst : ∀ x ∈ l1, (x.id == id) = false)
    (hitem : (item.id == id) = true)
    (htp : item.totalPages.getD 0 ≠ 0) :
    (editPages (l1 ++ item :: l2) id (EditOutcome.commit pages)).files =
      l1 ++ { item with selectedPages := some pages } :: l2 ∧
    (∀ m, Notification.errorToast m ∉
      (editPages (l1 ++ item :: l2) id (EditOutcome.commit pages)).notifications) ∧
    (editPages (l1 ++ item :: l2) id EditOutcome.cancel).files =
      l1 ++ item :: l2 := by
  have hfind := find?_append_cons l1 l2 item id hfirst hitem
  refine ⟨?_, ?_, ?_⟩
  · simp only [editPages, hfind]
    rw [if_neg htp]
    exact updateFirstById_append l1 l2 item id pages hfirst hitem
  · intro m hm
    simp only [editPages, hfind] at hm
    rw [if_neg htp] at hm
    simp at hm
  · rw [editPages_cancel]

/-- C6 amended witness: committing `[1]` on the sample item replaces its
selection verbatim. -/
theorem C6_amended_witness :
    (editPages [sampleItem] 5 (EditOutcome.commit [1])).files =
      [{ sampleItem with selectedPages := some [1] }] :=
  (C6_amended_edit_replaces_verbatim [] [] sampleItem 5 [1]
    (by intro x hx; simp at hx) (by decide) (by decide)).1

/-- C7: a validated single-page document is appended directly with status
success and `selectedPages = [0]`, and no `showPageSelector` request is
dispatched for it. -/
theorem C7_single_page_auto_select (s : BatchState) (f : RawFile)
    (buffer : Buffer) (info : PdfInfo) (h1 : f.mimeType = "application/pdf")
    (h2 : f.readResult = Except.ok buffer) (h3 : f.parseResult = Except.ok info)
    (h4 : info.pageCount = 1) (h5 : 0 < info.width) (h6 : 0 < info.height) :
    (processFile s f).files = s.files ++
      [{ id := s.nextId, name := f.name, buffer := buffer,
         status := Status.success, selectedPages := some [0],
         totalPages := some 1 }] ∧
    (processFile s f).selectionRequests = s.selectionRequests ∧
    (processFile s f).successCount = s.successCount + 1 := by
  rw [processFile_eq, classify_of_singlePage f buffer info h1 h2 h3 h4 h5 h6]
  exact ⟨rfl, rfl, rfl⟩

/-- C7 witness: the single-page sample file is appended with selection
`[0]` and no selection request. -/
theorem C7_witness :
    (processFile (initialBatchState [] 0) singlePdf).files =
      [{ id := 0, name := "a.pdf", buffer := [10], status := Status.success,
         selectedPages := some [0], totalPages := some 1 }] ∧
    (processFile (initialBatchState [] 0) singlePdf).selectionRequests = [] :=
  have h := C7_single_page_auto_select (initialBatchState [] 0) singlePdf [10]
    { pageCount := 1, width := 595, height := 842 } rfl rfl rfl rfl
    (by decide) (by decide)
  ⟨h.1, h.2.1⟩

/-- C8: removing a present identity from a store with unique identities
drops exactly that item, keeps the relative order of the rest (the result
is a sublist containing every other item), and removing an absent
identity is a no-op. -/
theorem C8_removeById_spec (files : List FileItem) (id : Nat)
    (hnodup : (files.map (fun f => f.id)).Nodup) :
    ((∃ x ∈ files, x.id = id) →
      (removeById files id).length + 1 = files.length) ∧
    (∀ g ∈ removeById files id, g.id ≠ id) ∧
    List.Sublist (removeById files id) files ∧
    (∀ g ∈ files, g.id ≠ id → g ∈ removeById files id) ∧
    ((∀ x ∈ files, x.id ≠ id) → removeById files id = files) := by
  refine ⟨removeById_length id files hnodup, ?_, ?_, ?_, ?_⟩
  · intro g hg
    have := (List.mem_filter.mp hg).2
    simpa using this
  · exact List.filter_sublist files
  · intro g hg hne
    exact List.mem_filter.mpr ⟨hg, by simpa using hne⟩
  · intro hall
    exact List.filter_eq_self.mpr (fun a ha => by simpa using hall a ha)

/-- C8 witness: removing identity 5 from a two-item store leaves the other
item alone. -/
theorem C8_witness :
    (removeById [sampleItem, sampleItem2] 5).length + 1 = 2 ∧
    removeById [sampleItem, sampleItem2] 5 = [sampleItem2] :=
  have h := C8_removeById_spec [sampleItem, sampleItem2] 5 (by decide)
  ⟨h.1 ⟨sampleItem, by decide, rfl⟩, by decide⟩

/-- C9: the aggregate outcome raised at the end of a batch is exactly the
four-case notification the claim enumerates — proved by showing the
code's summary equals the spec-side `specSummary` on every pair of
counts. -/
theorem C9_summary_matches_spec (successCount : Nat)
    (failedFiles : List String) :
    batchSummary successCount failedFiles =
      specSummary successCount failedFiles := by
  unfold batchSummary specSummary
  rcases failedFiles with _ | ⟨a, rest⟩
  · rcases successCount with _ | _ | n <;> simp
  · rcases Nat.eq_zero_or_pos successCount with h | h <;>
      simp [h, Nat.pos_iff_ne_zero]

/-- C10: a batch in which every file resolves as a cancelled multi-page
selection (which includes the empty batch vacuously) raises no aggregate
notification of any kind, and cancelled files count toward neither the
success count nor the failure list. -/
theorem C10_no_summary_when_all_cancelled (files₀ : List FileItem) (n₀ : Nat)
    (fs : List RawFile)
    (h : ∀ f ∈ fs, classify f = StepKind.multiCancel) :
    (handleFiles files₀ n₀ fs).2 = Summary.noSummary ∧
    (handleFiles files₀ n₀ fs).1.successCount = 0 ∧
    (handleFiles files₀ n₀ fs).1.failedFiles = [] := by
  have hc := foldl_cancel_counts fs (initialBatchState files₀ n₀) h
  refine ⟨?_, hc.1, hc.2⟩
  have he : (handleFiles files₀ n₀ fs).2 =
      batchSummary
        (fs.foldl processFile (initialBatchState files₀ n₀)).successCount
        (fs.foldl processFile (initialBatchState files₀ n₀)).failedFiles := rfl
  rw [he, hc.1, hc.2]
  rfl

/-- C10 witness: a batch of one cancelled multi-page file raises no
aggregate notification. -/
theorem C10_witness :
    (handleFiles [] 0 [multiCancelPdf]).2 = Summary.noSummary ∧
    (handleFiles [] 0 [multiCancelPdf]).1.successCount = 0 :=
  have h := C10_no_summary_when_all_cancelled [] 0 [multiCancelPdf]
    (by intro f hf; rw [List.mem_singleton.mp hf]; decide)
  ⟨h.1, h.2.1⟩

end LabelSqueeze
